import Mathlib

/-!
Shallow embedding of the awebox vortex-induction core
(`awebox/mdl/aero/induction_dir/vortex_dir/biot_savart.py` and
`awebox/mdl/aero/induction_dir/vortex_dir/tools.py`), together with
theorems about the desingularized Biot-Savart kernel, the vortex-ring
filament builder, and the wake filament-list assembly.

Real (casadi) scalars are modelled by `ℝ`; 3-vectors by the `Vec3`
structure; per-name variable dictionaries by functions out of `String`;
casadi/NumPy-style (possibly negative, wrap-around) indexing by `pyIdx`;
a raised indexing error by an `Option.none` result.
-/

noncomputable section
/-- A 3-dimensional real vector, modelling one casadi 3x1 column. -/
@[ext]
structure Vec3 where
  x : ℝ
  y : ℝ
  z : ℝ

namespace Vec3

def zero : Vec3 := ⟨0, 0, 0⟩

def add (a b : Vec3) : Vec3 := ⟨a.x + b.x, a.y + b.y, a.z + b.z⟩

def sub (a b : Vec3) : Vec3 := ⟨a.x - b.x, a.y - b.y, a.z - b.z⟩

def smul (k : ℝ) (a : Vec3) : Vec3 := ⟨k * a.x, k * a.y, k * a.z⟩

/-- Dot product, modelling `cas.mtimes(v.T, w)` on 3x1 columns. -/
def dot (a b : Vec3) : ℝ := a.x * b.x + a.y * b.y + a.z * b.z

/-- Cross product, modelling `vect_op.cross`. -/
def cross (a b : Vec3) : Vec3 :=
  ⟨a.y * b.z - a.z * b.y, a.z * b.x - a.x * b.z, a.x * b.y - a.y * b.x⟩

/-- Squared Euclidean norm. -/
def nsq (a : Vec3) : ℝ := dot a a

end Vec3

/-- Modelled from the spec: `vect_op.smooth_norm` lives in
`awebox/tools/vector_operations.py`, which is not part of the supplied
sources.  The spec states that vector norms are computed "with a
smoothed-norm that adds a small floor to avoid non-differentiability at
exactly zero"; we model it as `sqrt (|v|^2 + delta^2)` with the floor
`delta` an explicit parameter. -/
def smooth_norm (delta : ℝ) (v : Vec3) : ℝ :=
  Real.sqrt (Vec3.nsq v + delta ^ 2)

/-- Segment data layout consumed by the kernel, per
`get_biot_savart_segment_list` / `filament`: entries 0-2 the observation
point, 3-5 the first endpoint, 6-8 the second endpoint, 9 the
circulation, 10 the regularization parameter. -/
def packSeg (X P1 P2 : Vec3) (Gamma epsilon : ℝ) : List ℝ :=
  [X.x, X.y, X.z, P1.x, P1.y, P1.z, P2.x, P2.y, P2.z, Gamma, epsilon]

/-- The Biot-Savart kernel `filament(seg_data)` of `biot_savart.py`
(lines 67-96), with the smooth-norm floor `delta` made explicit. -/
def filament (delta : ℝ) (seg_data : List ℝ) : Vec3 :=
  let point_obs : Vec3 := ⟨seg_data.getD 0 0, seg_data.getD 1 0, seg_data.getD 2 0⟩
  let point_1 : Vec3 := ⟨seg_data.getD 3 0, seg_data.getD 4 0, seg_data.getD 5 0⟩
  let point_2 : Vec3 := ⟨seg_data.getD 6 0, seg_data.getD 7 0, seg_data.getD 8 0⟩
  let Gamma : ℝ := seg_data.getD 9 0
  let epsilon : ℝ := seg_data.getD 10 0
  let vec_1 := Vec3.sub point_obs point_1
  let vec_2 := Vec3.sub point_obs point_2
  let vec_0 := Vec3.sub point_2 point_1
  let r1 := smooth_norm delta vec_1
  let r2 := smooth_norm delta vec_2
  let r0 := smooth_norm delta vec_0
  let factor := Gamma / (4 * Real.pi)
  let num := r1 + r2
  let den_ori := (r1 * r2) * (r1 * r2 + Vec3.dot vec_1 vec_2)
  let den_reg := (epsilon * r0) ^ 2
  let den := den_ori + den_reg
  let dir := Vec3.cross vec_1 vec_2
  let scale := factor * num / den
  Vec3.smul scale dir

/-- The denominator computed inside `filament` (lines 87-89 of
`biot_savart.py`): `den = den_ori + den_reg`. -/
def filament_den (delta : ℝ) (seg_data : List ℝ) : ℝ :=
  let point_obs : Vec3 := ⟨seg_data.getD 0 0, seg_data.getD 1 0, seg_data.getD 2 0⟩
  let point_1 : Vec3 := ⟨seg_data.getD 3 0, seg_data.getD 4 0, seg_data.getD 5 0⟩
  let point_2 : Vec3 := ⟨seg_data.getD 6 0, seg_data.getD 7 0, seg_data.getD 8 0⟩
  let epsilon : ℝ := seg_data.getD 10 0
  let vec_1 := Vec3.sub point_obs point_1
  let vec_2 := Vec3.sub point_obs point_2
  let vec_0 := Vec3.sub point_2 point_1
  let r1 := smooth_norm delta vec_1
  let r2 := smooth_norm delta vec_2
  let r0 := smooth_norm delta vec_0
  (r1 * r2) * (r1 * r2 + Vec3.dot vec_1 vec_2) + (epsilon * r0) ^ 2

/-- The induced-velocity formula exactly as the spec states it:
`(r1 x r2) * (Gamma/(4*pi)) * (|r1| + |r2|) /
 (|r1|*|r2|*(|r1|*|r2| + r1.r2) + (epsilon*|r0|)^2)`,
with `r1 = X - P1`, `r2 = X - P2`, `r0 = P2 - P1` and `|.|` the smoothed
norm.  Written from the spec's words, to be compared with `filament`. -/
def biot_savart_spec_formula (delta : ℝ) (X P1 P2 : Vec3) (Gamma epsilon : ℝ) : Vec3 :=
  let r1v := Vec3.sub X P1
  let r2v := Vec3.sub X P2
  let r0v := Vec3.sub P2 P1
  Vec3.smul
    (Gamma / (4 * Real.pi) * (smooth_norm delta r1v + smooth_norm delta r2v) /
      (smooth_norm delta r1v * smooth_norm delta r2v *
        (smooth_norm delta r1v * smooth_norm delta r2v + Vec3.dot r1v r2v) +
        (epsilon * smooth_norm delta r0v) ^ 2))
    (Vec3.cross r1v r2v)

/-- Indexing with Python/casadi semantics: a nonnegative index `i` reads
position `i`, a negative index wraps around to `length + i`, and any
index outside `[-length, length)` is an error (`none`), modelling a
raised out-of-range exception. -/
def pyIdx {α : Type} (l : List α) (i : ℤ) : Option α :=
  if 0 ≤ i then l.get? i.toNat
  else if i + l.length < 0 then none
  else l.get? (i + l.length).toNat

/-- One row of the filament table: `cas.horzcat(start_point, end_point,
strength)` in `get_vortex_ring_filaments`. -/
structure Fil where
  start_point : Vec3
  end_point : Vec3
  strength : ℝ

/-- `get_vortex_ring_filaments` of `tools.py` (lines 203-243): the three
explicit filament segments of vortex ring `rdx`, read from the padded
point and strength tables with Python/casadi indexing; `none` models a
raised index error. -/
def get_vortex_ring_filaments (padded_strengths : List ℝ)
    (padded_points_ext padded_points_int : List Vec3) (rdx : ℤ) :
    Option (List Fil) := do
  let int_trailing ← pyIdx padded_points_int (rdx + 1)
  let int_leading ← pyIdx padded_points_int rdx
  let ext_leading ← pyIdx padded_points_ext rdx
  let ext_trailing ← pyIdx padded_points_ext (rdx + 1)
  let strength_leading ← pyIdx padded_strengths rdx
  let strength_trailing ← pyIdx padded_strengths (rdx - 1)
  some [⟨int_trailing, int_leading, strength_leading⟩,
        ⟨int_leading, ext_leading, strength_leading - strength_trailing⟩,
        ⟨ext_leading, ext_trailing, strength_leading⟩]

/-- The variable name `'w' + dim + '_' + tip + '_' + str(period) +
'_' + str(kite) + str(parent)` used for wake position streams. -/
def wName (dim tip : String) (period kite parent : ℕ) : String :=
  "w" ++ dim ++ "_" ++ tip ++ "_" ++ toString period ++ "_" ++
    toString kite ++ toString parent

/-- The variable name `'wg' + '_' + str(period) + '_' + str(kite) +
str(parent)` used for circulation-strength streams. -/
def wgName (period kite parent : ℕ) : String :=
  "wg" ++ "_" ++ toString period ++ "_" ++ toString kite ++ toString parent

/-- `get_time_ordered_wake_var_without_start` (tools.py lines 106-116):
drop the period-start sample, reshape the remaining `n_k*d` samples
column-major into an `n_k x d` grid, transpose, flatten, and reverse so
that index 0 is most time-distant.  Position `b*d + a` of the transposed
flattening reads entry `a*n_k + b` of the regular stream. -/
def get_time_ordered_wake_var_without_start (n_k d : ℕ) (var : List ℝ) :
    List ℝ :=
  let var_regular := var.drop 1
  (((List.range n_k).flatMap fun b =>
      (List.range d).map fun a => var_regular.getD (a * n_k + b) 0)).reverse

/-- `get_time_ordered_wake_var_with_start` (tools.py lines 119-125):
the reordered regular samples followed by the period-start sample. -/
def get_time_ordered_wake_var_with_start (n_k d : ℕ) (var : List ℝ) :
    List ℝ :=
  get_time_ordered_wake_var_without_start n_k d var ++ [var.getD 0 0]

/-- `get_time_ordered_strength` (tools.py lines 128-138): same reorder
as for points but on the whole stream (no start sample to drop). -/
def get_time_ordered_strength (n_k d : ℕ) (var : List ℝ) : List ℝ :=
  (((List.range n_k).flatMap fun b =>
      (List.range d).map fun a => var.getD (a * n_k + b) 0)).reverse

/-- One spatial component of
`get_all_time_ordered_points_by_kite_and_tip` (tools.py lines 140-162):
reordered streams of all full periods, then the start-spliced stream of
the most recent period. -/
def get_all_time_ordered_points_one_dim (variables_xd : String → List ℝ)
    (n_k d periods_tracked kite parent : ℕ) (tip dim : String) : List ℝ :=
  (((List.range (periods_tracked - 1)).map fun period =>
      get_time_ordered_wake_var_without_start n_k d
        (variables_xd (wName dim tip period kite parent))).flatten) ++
    get_time_ordered_wake_var_with_start n_k d
      (variables_xd (wName dim tip (periods_tracked - 1) kite parent))

/-- `cas.horzcat` of the three component columns into a list of points. -/
def combine3 (lx ly lz : List ℝ) : List Vec3 :=
  List.zipWith (fun p c => Vec3.mk p.1 p.2 c) (List.zip lx ly) lz

/-- `get_all_time_ordered_points_by_kite_and_tip` (tools.py lines
140-162), with the three `dims` columns combined into points. -/
def get_all_time_ordered_points_by_kite_and_tip
    (variables_xd : String → List ℝ)
    (n_k d periods_tracked kite parent : ℕ) (tip : String) : List Vec3 :=
  combine3
    (get_all_time_ordered_points_one_dim variables_xd n_k d periods_tracked
      kite parent tip "x")
    (get_all_time_ordered_points_one_dim variables_xd n_k d periods_tracked
      kite parent tip "y")
    (get_all_time_ordered_points_one_dim variables_xd n_k d periods_tracked
      kite parent tip "z")

/-- `get_padded_points_by_kite_and_tip` (tools.py lines 164-176):
the time-ordered points padded at both ends with pseudo-infinite
extension points projected along the reference convection direction. -/
def get_padded_points_by_kite_and_tip (variables_xd : String → List ℝ)
    (n_k d periods_tracked kite parent : ℕ) (tip : String)
    (u_vec_ref : Vec3) (infinite_time : ℝ) : List Vec3 :=
  let regular := get_all_time_ordered_points_by_kite_and_tip variables_xd
    n_k d periods_tracked kite parent tip
  let leading := regular.getD 0 Vec3.zero
  let trailing := regular.getD (regular.length - 1) Vec3.zero
  let infinite_leading := Vec3.add leading (Vec3.smul (infinite_time * (-1)) u_vec_ref)
  let infinite_trailing := Vec3.add trailing (Vec3.smul infinite_time u_vec_ref)
  [infinite_leading] ++ regular ++ [infinite_trailing]

/-- `get_all_time_ordered_strengths_by_kite` (tools.py lines 179-188). -/
def get_all_time_ordered_strengths_by_kite (variables_xl : String → List ℝ)
    (n_k d periods_tracked kite parent : ℕ) : List ℝ :=
  ((List.range periods_tracked).map fun period =>
    get_time_ordered_strength n_k d
      (variables_xl (wgName period kite parent))).flatten

/-- `get_padded_strengths_by_kite` (tools.py lines 190-200): a zero
strength prepended at the leading infinite extension, the newest
strength repeated at the trailing one. -/
def get_padded_strengths_by_kite (variables_xl : String → List ℝ)
    (n_k d periods_tracked kite parent : ℕ) : List ℝ :=
  let regular := get_all_time_ordered_strengths_by_kite variables_xl n_k d
    periods_tracked kite parent
  let trailing := regular.getD (regular.length - 1) 0
  [0] ++ regular ++ [trailing]

/-- `get_number_of_rings_per_kite` (tools.py lines 246-249); the count
includes the leading- and trailing-infinite rings. -/
def get_number_of_rings_per_kite (n_k d periods_tracked : ℕ) : ℕ :=
  periods_tracked * n_k * d + 2

/-- The `args` dictionary consumed by `get_list_of_filaments_by_kite`. -/
structure FilamentArgs where
  variables_xd : String → List ℝ
  variables_xl : String → List ℝ
  u_vec_ref : Vec3
  infinite_time : ℝ
  periods_tracked : ℕ
  n_k : ℕ
  d : ℕ
  kite : ℕ
  parent : ℕ

/-- The accumulation loop `for rdx in range(1, n_rings): filaments =
cas.vertcat(filaments, ring_filaments)`; a failing ring build aborts the
whole assembly (`none`). -/
def collectRings (padded_strengths : List ℝ)
    (padded_points_ext padded_points_int : List Vec3) :
    List ℤ → Option (List Fil)
  | [] => some []
  | rdx :: rest => do
    let ring ← get_vortex_ring_filaments padded_strengths padded_points_ext
      padded_points_int rdx
    let tail ← collectRings padded_strengths padded_points_ext
      padded_points_int rest
    some (ring ++ tail)

/-- `get_list_of_filaments_by_kite` (tools.py lines 252-277). -/
def get_list_of_filaments_by_kite (args : FilamentArgs) : Option (List Fil) :=
  let padded_strengths := get_padded_strengths_by_kite args.variables_xl
    args.n_k args.d args.periods_tracked args.kite args.parent
  let padded_points_int := get_padded_points_by_kite_and_tip args.variables_xd
    args.n_k args.d args.periods_tracked args.kite args.parent "int"
    args.u_vec_ref args.infinite_time
  let padded_points_ext := get_padded_points_by_kite_and_tip args.variables_xd
    args.n_k args.d args.periods_tracked args.kite args.parent "ext"
    args.u_vec_ref args.infinite_time
  let n_rings := padded_strengths.length
  collectRings padded_strengths padded_points_ext padded_points_int
    ((List.range' 1 (n_rings - 1)).map Int.ofNat)

/-- The kite/parent architecture map consumed by
`get_list_of_all_filaments`. -/
structure Architecture where
  kite_nodes : List ℕ
  parent_map : ℕ → ℕ

/-- The per-kite accumulation loop of `get_list_of_all_filaments`. -/
def collectKites (variables_xd variables_xl : String → List ℝ)
    (parent_map : ℕ → ℕ) (u_vec_ref : Vec3) (infinite_time : ℝ)
    (periods_tracked n_k d : ℕ) : List ℕ → Option (List Fil)
  | [] => some []
  | kite :: rest => do
    let new_filaments ← get_list_of_filaments_by_kite
      ⟨variables_xd, variables_xl, u_vec_ref, infinite_time, periods_tracked,
        n_k, d, kite, parent_map kite⟩
    let tail ← collectKites variables_xd variables_xl parent_map u_vec_ref
      infinite_time periods_tracked n_k d rest
    some (new_filaments ++ tail)

/-- `get_list_of_all_filaments` (tools.py lines 280-309): loops the
per-kite assembly over all kites, with the pseudo-infinite projection
distance hard-coded to `infinite_time = 1000.`; the final transpose is a
representation detail not modelled. -/
def get_list_of_all_filaments (variables_xd variables_xl : String → List ℝ)
    (architecture : Architecture) (u_vec_ref : Vec3)
    (periods_tracked n_k d : ℕ) : Option (List Fil) :=
  let infinite_time : ℝ := 1000
  collectKites variables_xd variables_xl architecture.parent_map u_vec_ref
    infinite_time periods_tracked n_k d architecture.kite_nodes

/-- The signed sum of segment strengths around the closed quadrilateral
of ring `rdx`: its three emitted segments traversed forward (they chain
`int[rdx+1] -> int[rdx] -> ext[rdx] -> ext[rdx+1]`), plus the shared
fourth edge — the middle segment of ring `rdx+1`, which runs
`int[rdx+1] -> ext[rdx+1]` — traversed backward, hence with negated
strength. -/
def ring_loop_signed_strength_sum (padded_strengths : List ℝ)
    (padded_points_ext padded_points_int : List Vec3) (rdx : ℤ) :
    Option ℝ := do
  let ring ← get_vortex_ring_filaments padded_strengths padded_points_ext
    padded_points_int rdx
  let next_ring ← get_vortex_ring_filaments padded_strengths padded_points_ext
    padded_points_int (rdx + 1)
  some ((ring.map Fil.strength).sum -
    (next_ring.getD 1 ⟨Vec3.zero, Vec3.zero, 0⟩).strength)

/-- Python runtime errors observable from `get_vector_var`:
`unboundLocal` models an `UnboundLocalError`/`NameError` from using a
never-assigned local, `indexError` an out-of-range indexing error, and
`configurationError` the `ConfigurationError` named by the spec (which
the code never raises). -/
inductive PyErr where
  | unboundLocal
  | indexError
  | configurationError
deriving DecidableEq

/-- `get_wake_var_at_ndx_ddx` (tools.py lines 35-44): the start sample,
or entry `(ndx, ddx)` of the column-major `n_k x d` reshape of the
regular samples, i.e. regular entry `ddx*n_k + ndx`. -/
def get_wake_var_at_ndx_ddx (n_k d : ℕ) (var : List ℝ) (start : Bool)
    (ndx ddx : ℕ) : ℝ :=
  if start then var.getD 0 0
  else (var.drop 1).getD (ddx * n_k + ndx) 0

/-- The component name `sym + dim + '_' + tip + '_' + str(period) + '_'
+ str(kite) + str(parent)` built inside `get_vector_var`. -/
def var_component_name (sym dim tip : String) (period kite parent : ℕ) :
    String :=
  sym ++ dim ++ "_" ++ tip ++ "_" ++ toString period ++ "_" ++
    toString kite ++ toString parent

/-- The `for dim in dims` loop of `get_vector_var` (tools.py lines
72-82), with Python local-variable semantics made explicit: `symOpt =
none` models the unassigned `sym` after the unknown-quantity branch
(which only logs), and `comp_all` carries the binding of the previous
iteration — a failed dictionary lookup is caught, logged, and leaves the
stale binding in place. -/
def getVectorVarLoop (n_k d : ℕ) (variables_xd : String → Option (List ℝ))
    (symOpt : Option String) (tip : String) (period kite parent : ℕ)
    (start : Bool) (ndx ddx : ℕ) :
    List String → Option (List ℝ) → List ℝ → Except PyErr (List ℝ)
  | [], _, vect => .ok vect
  | dim :: rest, comp_all, vect =>
    match symOpt with
    | none => .error .unboundLocal
    | some sym =>
      let name := var_component_name sym dim tip period kite parent
      let comp_all' := match variables_xd name with
        | some v => some v
        | none => comp_all
      match comp_all' with
      | none => .error .unboundLocal
      | some ca =>
        getVectorVarLoop n_k d variables_xd symOpt tip period kite parent
          start ndx ddx rest comp_all'
          (vect ++ [get_wake_var_at_ndx_ddx n_k d ca start ndx ddx])

/-- `get_vector_var` (tools.py lines 57-84).  An unknown `pos_vel`
selector, or an unknown variable name, is only logged by
`awelogger.logger.error` (modelled from the spec as non-raising: the
spec's NumericalWarning entry describes the same logger call in the
kernel self-test as "logged, does not abort"); execution then proceeds
to use the unassigned local and raises an unbound-local error. -/
def get_vector_var (n_k d : ℕ) (variables_xd : String → Option (List ℝ))
    (pos_vel tip : String) (period kite parent : ℕ) (start : Bool)
    (ndx ddx : ℕ) : Except PyErr (List ℝ) :=
  let symOpt : Option String :=
    if pos_vel = "pos" then some "w"
    else if pos_vel = "vel" then some "dw"
    else none
  getVectorVarLoop n_k d variables_xd symOpt tip period kite parent start
    ndx ddx ["x", "y", "z"] none []

@[simp] lemma Vec3.mk_xyz (v : Vec3) : (⟨v.x, v.y, v.z⟩ : Vec3) = v := rfl

lemma Vec3.nsq_nonneg (a : Vec3) : 0 ≤ nsq a := by
  simp only [nsq, dot]
  nlinarith [sq_nonneg a.x, sq_nonneg a.y, sq_nonneg a.z]

/-- Lagrange identity relating the cross and dot products. -/
lemma Vec3.nsq_cross_add_sq_dot (a b : Vec3) :
    nsq (cross a b) + (dot a b) ^ 2 = nsq a * nsq b := by
  simp only [nsq, dot, cross]
  ring

lemma Vec3.nsq_smul (k : ℝ) (a : Vec3) : nsq (smul k a) = k ^ 2 * nsq a := by
  simp only [nsq, dot, smul]
  ring

lemma Vec3.nsq_pos_of_ne {a b : Vec3} (h : a ≠ b) : 0 < nsq (sub a b) := by
  rcases lt_or_eq_of_le (nsq_nonneg (sub a b)) with hlt | heq
  · exact hlt
  · exfalso
    apply h
    have hx : (a.x - b.x) ^ 2 + (a.y - b.y) ^ 2 + (a.z - b.z) ^ 2 = 0 := by
      simp only [nsq, dot, sub] at heq
      nlinarith [heq]
    have h1 : a.x - b.x = 0 := by nlinarith [sq_nonneg (a.x - b.x), sq_nonneg (a.y - b.y), sq_nonneg (a.z - b.z)]
    have h2 : a.y - b.y = 0 := by nlinarith [sq_nonneg (a.x - b.x), sq_nonneg (a.y - b.y), sq_nonneg (a.z - b.z)]
    have h3 : a.z - b.z = 0 := by nlinarith [sq_nonneg (a.x - b.x), sq_nonneg (a.y - b.y), sq_nonneg (a.z - b.z)]
    ext <;> linarith

lemma smooth_norm_nonneg (delta : ℝ) (v : Vec3) : 0 ≤ smooth_norm delta v :=
  Real.sqrt_nonneg _

lemma smooth_norm_sq (delta : ℝ) (v : Vec3) :
    smooth_norm delta v ^ 2 = Vec3.nsq v + delta ^ 2 := by
  have h : 0 ≤ Vec3.nsq v + delta ^ 2 := by
    have := Vec3.nsq_nonneg v
    positivity
  simpa [smooth_norm] using Real.sq_sqrt h

lemma smooth_norm_sub_swap (delta : ℝ) (a b : Vec3) :
    smooth_norm delta (Vec3.sub a b) = smooth_norm delta (Vec3.sub b a) := by
  unfold smooth_norm
  congr 1
  simp only [Vec3.nsq, Vec3.dot, Vec3.sub]
  ring

lemma filament_packSeg (delta : ℝ) (X P1 P2 : Vec3) (Gamma epsilon : ℝ) :
    filament delta (packSeg X P1 P2 Gamma epsilon) =
      Vec3.smul
        (Gamma / (4 * Real.pi) *
          (smooth_norm delta (Vec3.sub X P1) + smooth_norm delta (Vec3.sub X P2)) /
          (smooth_norm delta (Vec3.sub X P1) * smooth_norm delta (Vec3.sub X P2) *
            (smooth_norm delta (Vec3.sub X P1) * smooth_norm delta (Vec3.sub X P2) +
              Vec3.dot (Vec3.sub X P1) (Vec3.sub X P2)) +
            (epsilon * smooth_norm delta (Vec3.sub P2 P1)) ^ 2))
        (Vec3.cross (Vec3.sub X P1) (Vec3.sub X P2)) := by
  simp [filament, packSeg, List.getD]

lemma filament_den_packSeg (delta : ℝ) (X P1 P2 : Vec3) (Gamma epsilon : ℝ) :
    filament_den delta (packSeg X P1 P2 Gamma epsilon) =
      smooth_norm delta (Vec3.sub X P1) * smooth_norm delta (Vec3.sub X P2) *
        (smooth_norm delta (Vec3.sub X P1) * smooth_norm delta (Vec3.sub X P2) +
          Vec3.dot (Vec3.sub X P1) (Vec3.sub X P2)) +
        (epsilon * smooth_norm delta (Vec3.sub P2 P1)) ^ 2 := by
  simp [filament_den, packSeg, List.getD]

/-- C1: for every segment-data input, the Biot-Savart kernel `filament`
returns exactly `(r1 x r2) * (Gamma/(4*pi)) * (|r1| + |r2|) /
(|r1|*|r2|*(|r1|*|r2| + r1.r2) + (epsilon*|r0|)^2)` with `r1 = X - P1`,
`r2 = X - P2`, `r0 = P2 - P1` and `|.|` the smoothed norm. -/
theorem claim_C1_kernel_matches_spec_formula
    (delta : ℝ) (X P1 P2 : Vec3) (Gamma epsilon : ℝ) :
    filament delta (packSeg X P1 P2 Gamma epsilon) =
      biot_savart_spec_formula delta X P1 P2 Gamma epsilon := by
  rw [filament_packSeg]
  rfl

/-- C6: swapping the endpoints while negating the circulation leaves the
kernel output unchanged:
`filament(X, P2, P1, -Gamma, epsilon) = filament(X, P1, P2, Gamma, epsilon)`. -/
theorem claim_C6_endpoint_sign_symmetry
    (delta : ℝ) (X P1 P2 : Vec3) (Gamma epsilon : ℝ) :
    filament delta (packSeg X P2 P1 (-Gamma) epsilon) =
      filament delta (packSeg X P1 P2 Gamma epsilon) := by
  rw [filament_packSeg, filament_packSeg, smooth_norm_sub_swap delta P1 P2]
  have hdot : Vec3.dot (Vec3.sub X P2) (Vec3.sub X P1) =
      Vec3.dot (Vec3.sub X P1) (Vec3.sub X P2) := by
    simp only [Vec3.dot, Vec3.sub]
    ring
  rw [hdot]
  have hden :
      smooth_norm delta (Vec3.sub X P2) * smooth_norm delta (Vec3.sub X P1) *
          (smooth_norm delta (Vec3.sub X P2) * smooth_norm delta (Vec3.sub X P1) +
            Vec3.dot (Vec3.sub X P1) (Vec3.sub X P2)) +
          (epsilon * smooth_norm delta (Vec3.sub P2 P1)) ^ 2 =
        smooth_norm delta (Vec3.sub X P1) * smooth_norm delta (Vec3.sub X P2) *
          (smooth_norm delta (Vec3.sub X P1) * smooth_norm delta (Vec3.sub X P2) +
            Vec3.dot (Vec3.sub X P1) (Vec3.sub X P2)) +
          (epsilon * smooth_norm delta (Vec3.sub P2 P1)) ^ 2 := by
    ring
  rw [hden]
  ext <;> simp only [Vec3.smul, Vec3.cross, Vec3.sub] <;> ring

/-- C10: if the observation point lies on the straight line through the
two (distinct) endpoints, the kernel returns exactly the zero vector. -/
theorem claim_C10_zero_on_filament_line
    (delta Gamma epsilon t : ℝ) (X P1 P2 : Vec3)
    (heps : 0 < epsilon) (hne : P1 ≠ P2)
    (hX : X = Vec3.add P1 (Vec3.smul t (Vec3.sub P2 P1))) :
    filament delta (packSeg X P1 P2 Gamma epsilon) = Vec3.zero := by
  subst hX
  rw [filament_packSeg]
  ext <;>
    simp only [Vec3.smul, Vec3.cross, Vec3.sub, Vec3.add, Vec3.zero] <;>
    ring

/-- Witness for C10 at a concrete input: `P1 = (0,0,0)`, `P2 = (0,0,1)`,
`X = (0,0,2)` (the point `t = 2` on the line), `Gamma = 1`, `epsilon = 1`. -/
theorem claim_C10_zero_on_filament_line_witness :
    (0 : ℝ) < 1 ∧ (⟨0, 0, 0⟩ : Vec3) ≠ ⟨0, 0, 1⟩ ∧
      filament 0 (packSeg ⟨0, 0, 2⟩ ⟨0, 0, 0⟩ ⟨0, 0, 1⟩ 1 1) = Vec3.zero := by
  refine ⟨by norm_num, ?_, ?_⟩
  · intro h
    have hz : (0 : ℝ) = 1 := congrArg Vec3.z h
    norm_num at hz
  · exact claim_C10_zero_on_filament_line 0 1 1 2 ⟨0, 0, 2⟩ ⟨0, 0, 0⟩ ⟨0, 0, 1⟩
      (by norm_num)
      (by intro h; exact absurd (congrArg Vec3.z h) (by norm_num))
      (by ext <;> simp [Vec3.add, Vec3.smul, Vec3.sub])

lemma biot_den_pos_core
    (r1 r2 r0 dd epsilon : ℝ)
    (hr1 : 0 ≤ r1) (hr2 : 0 ≤ r2) (hr0 : 0 < r0) (heps : 0 < epsilon)
    (hdd : dd ^ 2 ≤ (r1 * r2) ^ 2) :
    0 < r1 * r2 * (r1 * r2 + dd) + (epsilon * r0) ^ 2 := by
  have hge : -(r1 * r2) ≤ dd := by nlinarith [mul_nonneg hr1 hr2]
  have h1 : 0 ≤ r1 * r2 * (r1 * r2 + dd) :=
    mul_nonneg (mul_nonneg hr1 hr2) (by linarith)
  have h2 : 0 < (epsilon * r0) ^ 2 := pow_pos (mul_pos heps hr0) 2
  linarith

set_option maxHeartbeats 1600000 in
lemma biot_bound_core
    (Gamma epsilon delta R r1 r2 r0 dd cc n1 n2 L : ℝ)
    (heps : 0 < epsilon) (hR : 0 ≤ R)
    (hn1 : 0 ≤ n1) (hn2 : 0 ≤ n2) (hL : 0 < L) (hcc : 0 ≤ cc)
    (hlag : cc + dd ^ 2 = n1 * n2)
    (hr1 : 0 ≤ r1) (hr2 : 0 ≤ r2) (hr0 : 0 ≤ r0)
    (hr1sq : r1 ^ 2 = n1 + delta ^ 2) (hr2sq : r2 ^ 2 = n2 + delta ^ 2)
    (hr0sq : r0 ^ 2 = L + delta ^ 2)
    (hb1 : n1 ≤ R ^ 2) (hb2 : n2 ≤ R ^ 2) :
    (Gamma / (4 * Real.pi) * (r1 + r2) /
          (r1 * r2 * (r1 * r2 + dd) + (epsilon * r0) ^ 2)) ^ 2 * cc *
        (epsilon ^ 2 * L) ^ 2 ≤
      (Gamma / (4 * Real.pi)) ^ 2 * (2 * (R + |delta|)) ^ 2 * R ^ 4 := by
  have habsd : 0 ≤ |delta| := abs_nonneg delta
  have habsq : |delta| ^ 2 = delta ^ 2 := sq_abs delta
  have h2R : 0 ≤ 2 * (R * |delta|) := by positivity
  have hr1le : r1 ≤ R + |delta| := by
    have hexp : (R + |delta|) ^ 2 = R ^ 2 + 2 * (R * |delta|) + |delta| ^ 2 := by ring
    have hsq : r1 ^ 2 ≤ (R + |delta|) ^ 2 := by rw [hexp]; linarith
    nlinarith [hsq, hr1, hR, habsd]
  have hr2le : r2 ≤ R + |delta| := by
    have hexp : (R + |delta|) ^ 2 = R ^ 2 + 2 * (R * |delta|) + |delta| ^ 2 := by ring
    have hsq : r2 ^ 2 ≤ (R + |delta|) ^ 2 := by rw [hexp]; linarith
    nlinarith [hsq, hr2, hR, habsd]
  have hnum : (r1 + r2) ^ 2 ≤ (2 * (R + |delta|)) ^ 2 := by
    nlinarith [hr1, hr2, hr1le, hr2le]
  have hcross_le : cc ≤ R ^ 2 * R ^ 2 := by
    have h1 : cc ≤ n1 * n2 := by linarith [sq_nonneg dd]
    have h2 : n1 * n2 ≤ R ^ 2 * R ^ 2 := mul_le_mul hb1 hb2 hn2 (sq_nonneg R)
    exact h1.trans h2
  have hr0pos : 0 < r0 := by
    rcases hr0.lt_or_eq with h | h
    · exact h
    · exfalso
      have h0 : r0 ^ 2 = 0 := by rw [← h]; ring
      rw [hr0sq] at h0
      linarith [sq_nonneg delta]
  have hdd : dd ^ 2 ≤ (r1 * r2) ^ 2 := by
    have h12 : (r1 * r2) ^ 2 = (n1 + delta ^ 2) * (n2 + delta ^ 2) := by
      rw [mul_pow, hr1sq, hr2sq]
    nlinarith [mul_nonneg hn1 (sq_nonneg delta), mul_nonneg hn2 (sq_nonneg delta),
      sq_nonneg (delta ^ 2), hcc]
  have hden_ori : 0 ≤ r1 * r2 * (r1 * r2 + dd) := by
    have hge : -(r1 * r2) ≤ dd := by nlinarith [mul_nonneg hr1 hr2, hdd]
    exact mul_nonneg (mul_nonneg hr1 hr2) (by linarith)
  have hmono : (epsilon ^ 2 * L) ^ 2 ≤
      (r1 * r2 * (r1 * r2 + dd) + (epsilon * r0) ^ 2) ^ 2 := by
    have hE : (epsilon * r0) ^ 2 = epsilon ^ 2 * L + epsilon ^ 2 * delta ^ 2 := by
      rw [mul_pow, hr0sq]
      ring
    have h1 : epsilon ^ 2 * L ≤ (epsilon * r0) ^ 2 := by
      rw [hE]
      linarith [mul_nonneg (sq_nonneg epsilon) (sq_nonneg delta)]
    have h2 : (epsilon * r0) ^ 2 ≤ r1 * r2 * (r1 * r2 + dd) + (epsilon * r0) ^ 2 := by
      linarith
    have h3 : 0 ≤ epsilon ^ 2 * L := mul_nonneg (sq_nonneg _) (le_of_lt hL)
    exact pow_le_pow_left₀ h3 (h1.trans h2) 2
  have hDpos := biot_den_pos_core r1 r2 r0 dd epsilon hr1 hr2 hr0pos heps hdd
  set D := r1 * r2 * (r1 * r2 + dd) + (epsilon * r0) ^ 2 with hD
  have hDne : D ≠ 0 := ne_of_gt hDpos
  have hsc_nonneg :
      0 ≤ (Gamma / (4 * Real.pi) * (r1 + r2) / D) ^ 2 * cc :=
    mul_nonneg (sq_nonneg _) hcc
  have step1 :
      (Gamma / (4 * Real.pi) * (r1 + r2) / D) ^ 2 * cc * (epsilon ^ 2 * L) ^ 2 ≤
        (Gamma / (4 * Real.pi) * (r1 + r2) / D) ^ 2 * cc * D ^ 2 :=
    mul_le_mul_of_nonneg_left hmono hsc_nonneg
  have step2 :
      (Gamma / (4 * Real.pi) * (r1 + r2) / D) ^ 2 * cc * D ^ 2 =
        (Gamma / (4 * Real.pi)) ^ 2 * (r1 + r2) ^ 2 * cc := by
    have hD2 : D ^ 2 ≠ 0 := pow_ne_zero 2 hDne
    have h1 : (Gamma / (4 * Real.pi) * (r1 + r2) / D) ^ 2 * cc * D ^ 2 =
        (Gamma / (4 * Real.pi) * (r1 + r2)) ^ 2 / D ^ 2 * D ^ 2 * cc := by
      rw [div_pow]
      ring
    rw [h1, div_mul_cancel₀ _ hD2, mul_pow]
  have final :
      (Gamma / (4 * Real.pi)) ^ 2 * (r1 + r2) ^ 2 * cc ≤
        (Gamma / (4 * Real.pi)) ^ 2 * (2 * (R + |delta|)) ^ 2 * R ^ 4 := by
    have hf : 0 ≤ (Gamma / (4 * Real.pi)) ^ 2 := sq_nonneg _
    calc (Gamma / (4 * Real.pi)) ^ 2 * (r1 + r2) ^ 2 * cc
        ≤ (Gamma / (4 * Real.pi)) ^ 2 * (2 * (R + |delta|)) ^ 2 * cc := by
          exact mul_le_mul_of_nonneg_right (mul_le_mul_of_nonneg_left hnum hf) hcc
      _ ≤ (Gamma / (4 * Real.pi)) ^ 2 * (2 * (R + |delta|)) ^ 2 * (R ^ 2 * R ^ 2) := by
          exact mul_le_mul_of_nonneg_left hcross_le (mul_nonneg hf (sq_nonneg _))
      _ = (Gamma / (4 * Real.pi)) ^ 2 * (2 * (R + |delta|)) ^ 2 * R ^ 4 := by ring
  calc (Gamma / (4 * Real.pi) * (r1 + r2) / D) ^ 2 * cc * (epsilon ^ 2 * L) ^ 2
      ≤ (Gamma / (4 * Real.pi) * (r1 + r2) / D) ^ 2 * cc * D ^ 2 := step1
    _ = (Gamma / (4 * Real.pi)) ^ 2 * (r1 + r2) ^ 2 * cc := step2
    _ ≤ (Gamma / (4 * Real.pi)) ^ 2 * (2 * (R + |delta|)) ^ 2 * R ^ 4 := final

/-- C5: for every `epsilon > 0` and distinct endpoints, the kernel's
denominator is strictly positive at every observation point (no division
by zero), and the induced-velocity magnitude is bounded on every ball
around the filament: within distance `R` of both endpoints,
`|sol|^2 * (epsilon^2*|P2-P1|^2)^2` is at most an explicit constant, so
the velocity stays finite and bounded as `X` approaches the filament
line. -/
theorem claim_C5_denominator_positive_and_velocity_bounded
    (delta Gamma epsilon R : ℝ) (X P1 P2 : Vec3)
    (heps : 0 < epsilon) (hne : P1 ≠ P2) (hR : 0 ≤ R) :
    0 < filament_den delta (packSeg X P1 P2 Gamma epsilon) ∧
      (Vec3.nsq (Vec3.sub X P1) ≤ R ^ 2 → Vec3.nsq (Vec3.sub X P2) ≤ R ^ 2 →
        Vec3.nsq (filament delta (packSeg X P1 P2 Gamma epsilon)) *
            (epsilon ^ 2 * Vec3.nsq (Vec3.sub P2 P1)) ^ 2 ≤
          (Gamma / (4 * Real.pi)) ^ 2 * (2 * (R + |delta|)) ^ 2 * R ^ 4) := by
  have hr1n := smooth_norm_nonneg delta (Vec3.sub X P1)
  have hr2n := smooth_norm_nonneg delta (Vec3.sub X P2)
  have hr0n := smooth_norm_nonneg delta (Vec3.sub P2 P1)
  have hr1sq := smooth_norm_sq delta (Vec3.sub X P1)
  have hr2sq := smooth_norm_sq delta (Vec3.sub X P2)
  have hr0sq := smooth_norm_sq delta (Vec3.sub P2 P1)
  have hlag := Vec3.nsq_cross_add_sq_dot (Vec3.sub X P1) (Vec3.sub X P2)
  have hcn := Vec3.nsq_nonneg (Vec3.cross (Vec3.sub X P1) (Vec3.sub X P2))
  have hn1 := Vec3.nsq_nonneg (Vec3.sub X P1)
  have hn2 := Vec3.nsq_nonneg (Vec3.sub X P2)
  have hL : 0 < Vec3.nsq (Vec3.sub P2 P1) := Vec3.nsq_pos_of_ne (Ne.symm hne)
  have hr0pos : 0 < smooth_norm delta (Vec3.sub P2 P1) := by
    nlinarith [sq_nonneg delta]
  have hdd : (Vec3.dot (Vec3.sub X P1) (Vec3.sub X P2)) ^ 2 ≤
      (smooth_norm delta (Vec3.sub X P1) * smooth_norm delta (Vec3.sub X P2)) ^ 2 := by
    have h12 : (smooth_norm delta (Vec3.sub X P1) * smooth_norm delta (Vec3.sub X P2)) ^ 2 =
        (Vec3.nsq (Vec3.sub X P1) + delta ^ 2) * (Vec3.nsq (Vec3.sub X P2) + delta ^ 2) := by
      rw [mul_pow, hr1sq, hr2sq]
    nlinarith [sq_nonneg delta]
  constructor
  · rw [filament_den_packSeg]
    exact biot_den_pos_core _ _ _ _ _ hr1n hr2n hr0pos heps hdd
  · intro hb1 hb2
    rw [filament_packSeg, Vec3.nsq_smul]
    exact biot_bound_core Gamma epsilon delta R
      (smooth_norm delta (Vec3.sub X P1)) (smooth_norm delta (Vec3.sub X P2))
      (smooth_norm delta (Vec3.sub P2 P1))
      (Vec3.dot (Vec3.sub X P1) (Vec3.sub X P2))
      (Vec3.nsq (Vec3.cross (Vec3.sub X P1) (Vec3.sub X P2)))
      (Vec3.nsq (Vec3.sub X P1)) (Vec3.nsq (Vec3.sub X P2))
      (Vec3.nsq (Vec3.sub P2 P1))
      heps hR hn1 hn2 hL hcn hlag hr1n hr2n hr0n hr1sq hr2sq hr0sq hb1 hb2

/-- Witness for C5 at a concrete input: `epsilon = 1`,
`P1 = (0,0,0) /= P2 = (1,0,0)`, `R = 2`. -/
theorem claim_C5_denominator_positive_and_velocity_bounded_witness :
    (0 : ℝ) < 1 ∧ (⟨0, 0, 0⟩ : Vec3) ≠ ⟨1, 0, 0⟩ ∧ (0 : ℝ) ≤ 2 ∧
      (0 < filament_den 0 (packSeg ⟨0, 1, 0⟩ ⟨0, 0, 0⟩ ⟨1, 0, 0⟩ 1 1) ∧
        (Vec3.nsq (Vec3.sub ⟨0, 1, 0⟩ ⟨0, 0, 0⟩) ≤ (2 : ℝ) ^ 2 →
          Vec3.nsq (Vec3.sub ⟨0, 1, 0⟩ ⟨1, 0, 0⟩) ≤ (2 : ℝ) ^ 2 →
          Vec3.nsq (filament 0 (packSeg ⟨0, 1, 0⟩ ⟨0, 0, 0⟩ ⟨1, 0, 0⟩ 1 1)) *
              ((1 : ℝ) ^ 2 * Vec3.nsq (Vec3.sub ⟨1, 0, 0⟩ ⟨0, 0, 0⟩)) ^ 2 ≤
            ((1 : ℝ) / (4 * Real.pi)) ^ 2 * (2 * (2 + |(0 : ℝ)|)) ^ 2 * (2 : ℝ) ^ 4)) := by
  refine ⟨by norm_num, ?_, by norm_num, ?_⟩
  · intro h
    exact absurd (congrArg Vec3.x h) (by norm_num)
  · exact claim_C5_denominator_positive_and_velocity_bounded 0 1 1 2
      ⟨0, 1, 0⟩ ⟨0, 0, 0⟩ ⟨1, 0, 0⟩ (by norm_num)
      (by intro h; exact absurd (congrArg Vec3.x h) (by norm_num)) (by norm_num)

lemma pyIdx_natCast {α : Type} (l : List α) (i : ℕ) (dflt : α)
    (h : i < l.length) : pyIdx l (i : ℤ) = some (l.getD i dflt) := by
  simp [pyIdx, List.getD_eq_getElem?_getD, List.getElem?_eq_getElem h,
    List.get?_eq_getElem?]

lemma pyIdx_none_of_le {α : Type} (l : List α) (i : ℤ)
    (h : (l.length : ℤ) ≤ i) : pyIdx l i = none := by
  have h0 : 0 ≤ i := le_trans (Int.ofNat_nonneg _) h
  have hlen : l.length ≤ i.toNat := by omega
  simp [pyIdx, h0, List.get?_eq_getElem?, List.getElem?_eq_none hlen]

lemma get_vortex_ring_filaments_in_range (padded_strengths : List ℝ)
    (padded_points_ext padded_points_int : List Vec3) (n rdx : ℕ)
    (hs : padded_strengths.length = n)
    (hpe : padded_points_ext.length = n + 1)
    (hpi : padded_points_int.length = n + 1)
    (h1 : 1 ≤ rdx) (h2 : rdx < n) :
    get_vortex_ring_filaments padded_strengths padded_points_ext
        padded_points_int (rdx : ℤ) =
      some [⟨padded_points_int.getD (rdx + 1) Vec3.zero,
             padded_points_int.getD rdx Vec3.zero,
             padded_strengths.getD rdx 0⟩,
            ⟨padded_points_int.getD rdx Vec3.zero,
             padded_points_ext.getD rdx Vec3.zero,
             padded_strengths.getD rdx 0 - padded_strengths.getD (rdx - 1) 0⟩,
            ⟨padded_points_ext.getD rdx Vec3.zero,
             padded_points_ext.getD (rdx + 1) Vec3.zero,
             padded_strengths.getD rdx 0⟩] := by
  have e1 : ((rdx : ℤ) + 1) = ((rdx + 1 : ℕ) : ℤ) := by push_cast; ring
  have e2 : ((rdx : ℤ) - 1) = ((rdx - 1 : ℕ) : ℤ) := by omega
  rw [get_vortex_ring_filaments, e1, e2,
    pyIdx_natCast padded_points_int (rdx + 1) Vec3.zero (by omega),
    pyIdx_natCast padded_points_int rdx Vec3.zero (by omega),
    pyIdx_natCast padded_points_ext rdx Vec3.zero (by omega),
    pyIdx_natCast padded_points_ext (rdx + 1) Vec3.zero (by omega),
    pyIdx_natCast padded_strengths rdx 0 (by omega),
    pyIdx_natCast padded_strengths (rdx - 1) 0 (by omega)]
  rfl

/-- C2: for every ring index `rdx` in `[1, n_rings)` and consistent padded
point/strength tables, the ring builder emits exactly the three filament
segments (interior-trailing to interior-leading with the ring strength;
interior-leading to exterior-leading with the strength difference to the
previous ring; exterior-leading to exterior-trailing with the ring
strength) and no fourth edge. -/
theorem claim_C2_ring_emits_exactly_three_segments
    (padded_strengths : List ℝ) (padded_points_ext padded_points_int : List Vec3)
    (n_rings rdx : ℕ)
    (hs : padded_strengths.length = n_rings)
    (hpe : padded_points_ext.length = n_rings + 1)
    (hpi : padded_points_int.length = n_rings + 1)
    (h1 : 1 ≤ rdx) (h2 : rdx < n_rings) :
    get_vortex_ring_filaments padded_strengths padded_points_ext
        padded_points_int (rdx : ℤ) =
      some [⟨padded_points_int.getD (rdx + 1) Vec3.zero,
             padded_points_int.getD rdx Vec3.zero,
             padded_strengths.getD rdx 0⟩,
            ⟨padded_points_int.getD rdx Vec3.zero,
             padded_points_ext.getD rdx Vec3.zero,
             padded_strengths.getD rdx 0 - padded_strengths.getD (rdx - 1) 0⟩,
            ⟨padded_points_ext.getD rdx Vec3.zero,
             padded_points_ext.getD (rdx + 1) Vec3.zero,
             padded_strengths.getD rdx 0⟩] :=
  get_vortex_ring_filaments_in_range padded_strengths padded_points_ext
    padded_points_int n_rings rdx hs hpe hpi h1 h2

/-- Witness for C2 on a concrete table with `n_rings = 2`, `rdx = 1`. -/
theorem claim_C2_ring_emits_exactly_three_segments_witness :
    ([(0 : ℝ), 5] : List ℝ).length = 2 ∧
      (List.replicate 3 Vec3.zero).length = 2 + 1 ∧
      (1 : ℕ) ≤ 1 ∧ (1 : ℕ) < 2 ∧
      get_vortex_ring_filaments [(0 : ℝ), 5] (List.replicate 3 Vec3.zero)
          (List.replicate 3 Vec3.zero) ((1 : ℕ) : ℤ) =
        some [⟨(List.replicate 3 Vec3.zero).getD 2 Vec3.zero,
               (List.replicate 3 Vec3.zero).getD 1 Vec3.zero,
               ([(0 : ℝ), 5]).getD 1 0⟩,
              ⟨(List.replicate 3 Vec3.zero).getD 1 Vec3.zero,
               (List.replicate 3 Vec3.zero).getD 1 Vec3.zero,
               ([(0 : ℝ), 5]).getD 1 0 - ([(0 : ℝ), 5]).getD 0 0⟩,
              ⟨(List.replicate 3 Vec3.zero).getD 1 Vec3.zero,
               (List.replicate 3 Vec3.zero).getD 2 Vec3.zero,
               ([(0 : ℝ), 5]).getD 1 0⟩] :=
  ⟨rfl, rfl, le_refl 1, by norm_num,
    claim_C2_ring_emits_exactly_three_segments [(0 : ℝ), 5]
      (List.replicate 3 Vec3.zero) (List.replicate 3 Vec3.zero) 2 1
      rfl rfl rfl (le_refl 1) (by norm_num)⟩

/-- C9 counterexample: at ring index `rdx = 0` (outside `[1, n_rings)`,
here `n_rings = 2`) the builder does NOT fail: casadi/NumPy wrap-around
indexing reads `padded_strengths[-1]` as the last strength and a filament
list is returned, with the nonsensical strength difference `0 - 5`. -/
theorem claim_C9_counterexample_rdx_zero_returns_list :
    get_vortex_ring_filaments [(0 : ℝ), 5] (List.replicate 3 Vec3.zero)
        (List.replicate 3 Vec3.zero) 0 =
      some [⟨Vec3.zero, Vec3.zero, (0 : ℝ)⟩,
            ⟨Vec3.zero, Vec3.zero, (0 : ℝ) - 5⟩,
            ⟨Vec3.zero, Vec3.zero, (0 : ℝ)⟩] := by
  rfl

/-- C9 amended: the builder does fail fast for every ring index at or
above `n_rings` (the first point lookup `padded_points_int[rdx + 1]` is
out of range), though not for `rdx = 0` or small negative indices. -/
theorem claim_C9_amended_fails_for_rdx_ge_n_rings
    (padded_strengths : List ℝ) (padded_points_ext padded_points_int : List Vec3)
    (n_rings : ℕ) (rdx : ℤ)
    (hs : padded_strengths.length = n_rings)
    (hpi : padded_points_int.length = n_rings + 1)
    (hrdx : (n_rings : ℤ) ≤ rdx) :
    get_vortex_ring_filaments padded_strengths padded_points_ext
        padded_points_int rdx = none := by
  have h : (padded_points_int.length : ℤ) ≤ rdx + 1 := by
    rw [hpi]
    push_cast
    omega
  rw [get_vortex_ring_filaments, pyIdx_none_of_le padded_points_int (rdx + 1) h]
  rfl

/-- Witness for the amended C9 at a concrete table: `n_rings = 2`,
`rdx = 2`. -/
theorem claim_C9_amended_fails_for_rdx_ge_n_rings_witness :
    ([(0 : ℝ), 5] : List ℝ).length = 2 ∧
      (List.replicate 3 Vec3.zero).length = 2 + 1 ∧
      ((2 : ℕ) : ℤ) ≤ 2 ∧
      get_vortex_ring_filaments [(0 : ℝ), 5] (List.replicate 3 Vec3.zero)
          (List.replicate 3 Vec3.zero) 2 = none :=
  ⟨rfl, rfl, by norm_num,
    claim_C9_amended_fails_for_rdx_ge_n_rings [(0 : ℝ), 5]
      (List.replicate 3 Vec3.zero) (List.replicate 3 Vec3.zero) 2 2
      rfl rfl (by norm_num)⟩

lemma get_time_ordered_wake_var_without_start_length (n_k d : ℕ) (var : List ℝ) :
    (get_time_ordered_wake_var_without_start n_k d var).length = n_k * d := by
  simp [get_time_ordered_wake_var_without_start, List.length_flatMap,
    Function.comp_def, List.map_const']

lemma get_time_ordered_wake_var_with_start_length (n_k d : ℕ) (var : List ℝ) :
    (get_time_ordered_wake_var_with_start n_k d var).length = n_k * d + 1 := by
  simp [get_time_ordered_wake_var_with_start,
    get_time_ordered_wake_var_without_start_length]

lemma get_time_ordered_strength_length (n_k d : ℕ) (var : List ℝ) :
    (get_time_ordered_strength n_k d var).length = n_k * d := by
  simp [get_time_ordered_strength, List.length_flatMap,
    Function.comp_def, List.map_const']

lemma get_all_time_ordered_points_one_dim_length
    (variables_xd : String → List ℝ) (n_k d periods_tracked kite parent : ℕ)
    (tip dim : String) (hp : 1 ≤ periods_tracked) :
    (get_all_time_ordered_points_one_dim variables_xd n_k d periods_tracked
        kite parent tip dim).length = periods_tracked * (n_k * d) + 1 := by
  obtain ⟨q, rfl⟩ : ∃ q, periods_tracked = q + 1 :=
    ⟨periods_tracked - 1, by omega⟩
  rw [get_all_time_ordered_points_one_dim, List.length_append,
    List.length_flatten, get_time_ordered_wake_var_with_start_length]
  rw [List.map_map]
  simp only [Function.comp_def]
  rw [List.map_congr_left (fun x _ =>
      get_time_ordered_wake_var_without_start_length n_k d _)]
  simp [List.map_const']
  ring

lemma combine3_length (lx ly lz : List ℝ) :
    (combine3 lx ly lz).length = min (min lx.length ly.length) lz.length := by
  simp [combine3]

lemma get_all_time_ordered_points_length
    (variables_xd : String → List ℝ) (n_k d periods_tracked kite parent : ℕ)
    (tip : String) (hp : 1 ≤ periods_tracked) :
    (get_all_time_ordered_points_by_kite_and_tip variables_xd n_k d
        periods_tracked kite parent tip).length =
      periods_tracked * (n_k * d) + 1 := by
  rw [get_all_time_ordered_points_by_kite_and_tip, combine3_length,
    get_all_time_ordered_points_one_dim_length _ _ _ _ _ _ _ _ hp,
    get_all_time_ordered_points_one_dim_length _ _ _ _ _ _ _ _ hp,
    get_all_time_ordered_points_one_dim_length _ _ _ _ _ _ _ _ hp]
  omega

lemma get_padded_points_length
    (variables_xd : String → List ℝ) (n_k d periods_tracked kite parent : ℕ)
    (tip : String) (u_vec_ref : Vec3) (infinite_time : ℝ)
    (hp : 1 ≤ periods_tracked) :
    (get_padded_points_by_kite_and_tip variables_xd n_k d periods_tracked
        kite parent tip u_vec_ref infinite_time).length =
      periods_tracked * (n_k * d) + 3 := by
  rw [get_padded_points_by_kite_and_tip]
  simp only [List.length_append, List.length_cons, List.length_nil,
    get_all_time_ordered_points_length _ _ _ _ _ _ _ hp]
  omega

lemma get_all_time_ordered_strengths_length
    (variables_xl : String → List ℝ) (n_k d periods_tracked kite parent : ℕ) :
    (get_all_time_ordered_strengths_by_kite variables_xl n_k d
        periods_tracked kite parent).length =
      periods_tracked * (n_k * d) := by
  rw [get_all_time_ordered_strengths_by_kite, List.length_flatten,
    List.map_map]
  simp only [Function.comp_def]
  rw [List.map_congr_left (fun x _ => get_time_ordered_strength_length n_k d _)]
  simp [List.map_const']

lemma get_padded_strengths_length
    (variables_xl : String → List ℝ) (n_k d periods_tracked kite parent : ℕ) :
    (get_padded_strengths_by_kite variables_xl n_k d periods_tracked kite
        parent).length = periods_tracked * (n_k * d) + 2 := by
  rw [get_padded_strengths_by_kite]
  simp only [List.length_append, List.length_cons, List.length_nil,
    get_all_time_ordered_strengths_length]
  omega

lemma collectRings_all_some (padded_strengths : List ℝ)
    (padded_points_ext padded_points_int : List Vec3) (n : ℕ)
    (hs : padded_strengths.length = n)
    (hpe : padded_points_ext.length = n + 1)
    (hpi : padded_points_int.length = n + 1) :
    ∀ l : List ℕ, (∀ r ∈ l, 1 ≤ r ∧ r < n) →
      ∃ out, collectRings padded_strengths padded_points_ext padded_points_int
          (l.map Int.ofNat) = some out ∧ out.length = 3 * l.length := by
  intro l
  induction l with
  | nil => exact fun _ => ⟨[], rfl, rfl⟩
  | cons r rest ih =>
    intro hl
    obtain ⟨h1, h2⟩ := hl r (List.mem_cons_self r rest)
    obtain ⟨out, hout, hlen⟩ := ih fun a ha => hl a (List.mem_cons_of_mem r ha)
    refine ⟨[⟨padded_points_int.getD (r + 1) Vec3.zero,
              padded_points_int.getD r Vec3.zero,
              padded_strengths.getD r 0⟩,
             ⟨padded_points_int.getD r Vec3.zero,
              padded_points_ext.getD r Vec3.zero,
              padded_strengths.getD r 0 - padded_strengths.getD (r - 1) 0⟩,
             ⟨padded_points_ext.getD r Vec3.zero,
              padded_points_ext.getD (r + 1) Vec3.zero,
              padded_strengths.getD r 0⟩] ++ out, ?_, ?_⟩
    · rw [List.map_cons, collectRings]
      rw [show (Int.ofNat r) = ((r : ℕ) : ℤ) from rfl,
        get_vortex_ring_filaments_in_range padded_strengths padded_points_ext
          padded_points_int n r hs hpe hpi h1 h2]
      rw [Option.bind_eq_bind, Option.some_bind, hout]
      rfl
    · simp only [List.length_append, List.length_cons, List.length_nil, hlen]
      omega

/-- C4: with `n_k, d, periods_tracked >= 1` and input streams of the
matching lengths, the ring count per kite is
`periods_tracked*n_k*d + 2` (including both infinite-extension rings),
the padded strength table has exactly that many rows, and the assembled
per-kite filament list exists and contains exactly
`3*(periods_tracked*n_k*d + 1)` filament rows. -/
theorem claim_C4_ring_count_and_filament_count
    (args : FilamentArgs)
    (hn : 1 ≤ args.n_k) (hd : 1 ≤ args.d) (hp : 1 ≤ args.periods_tracked)
    (hxd : ∀ dim ∈ (["x", "y", "z"] : List String),
      ∀ tip ∈ (["int", "ext"] : List String),
      ∀ period < args.periods_tracked,
      (args.variables_xd (wName dim tip period args.kite args.parent)).length =
        args.n_k * args.d + 1)
    (hxl : ∀ period < args.periods_tracked,
      (args.variables_xl (wgName period args.kite args.parent)).length =
        args.n_k * args.d) :
    get_number_of_rings_per_kite args.n_k args.d args.periods_tracked =
        args.periods_tracked * args.n_k * args.d + 2 ∧
      (get_padded_strengths_by_kite args.variables_xl args.n_k args.d
          args.periods_tracked args.kite args.parent).length =
        get_number_of_rings_per_kite args.n_k args.d args.periods_tracked ∧
      ∃ fl, get_list_of_filaments_by_kite args = some fl ∧
        fl.length = 3 * (args.periods_tracked * args.n_k * args.d + 1) := by
  have hps := get_padded_strengths_length args.variables_xl args.n_k args.d
    args.periods_tracked args.kite args.parent
  have hpint := get_padded_points_length args.variables_xd args.n_k args.d
    args.periods_tracked args.kite args.parent "int" args.u_vec_ref
    args.infinite_time hp
  have hpext := get_padded_points_length args.variables_xd args.n_k args.d
    args.periods_tracked args.kite args.parent "ext" args.u_vec_ref
    args.infinite_time hp
  refine ⟨rfl, ?_, ?_⟩
  · rw [hps, get_number_of_rings_per_kite]
    ring_nf
  · rw [get_list_of_filaments_by_kite]
    obtain ⟨out, hout, hlen⟩ := collectRings_all_some _ _ _
      (args.periods_tracked * (args.n_k * args.d) + 2) hps
      (by rw [hpext]) (by rw [hpint])
      (List.range' 1 (args.periods_tracked * (args.n_k * args.d) + 2 - 1))
      (by
        intro r hr
        rw [List.mem_range'_1] at hr
        omega)
    rw [hps]
    refine ⟨out, hout, ?_⟩
    rw [hlen, List.length_range']
    have hm : args.periods_tracked * (args.n_k * args.d) =
        args.periods_tracked * args.n_k * args.d := by ring
    rw [hm]
    omega

/-- Witness for C4 at `n_k = d = periods_tracked = 1`, kite 2 with
parent 1, constant streams of the matching lengths. -/
theorem claim_C4_ring_count_and_filament_count_witness :
    (1 : ℕ) ≤ 1 ∧
      ((fun _ : String => [(0 : ℝ), 0]) "wx_int_0_21").length = 1 * 1 + 1 ∧
      ((fun _ : String => [(0 : ℝ)]) "wg_0_21").length = 1 * 1 ∧
      (get_number_of_rings_per_kite 1 1 1 = 1 * 1 * 1 + 2 ∧
        (get_padded_strengths_by_kite (fun _ => [(0 : ℝ)]) 1 1 1 2 1).length =
          get_number_of_rings_per_kite 1 1 1 ∧
        ∃ fl, get_list_of_filaments_by_kite
            ⟨fun _ => [(0 : ℝ), 0], fun _ => [(0 : ℝ)], Vec3.zero, 1000,
              1, 1, 1, 2, 1⟩ = some fl ∧
          fl.length = 3 * (1 * 1 * 1 + 1)) :=
  ⟨le_refl 1, rfl, rfl,
    claim_C4_ring_count_and_filament_count
      ⟨fun _ => [(0 : ℝ), 0], fun _ => [(0 : ℝ)], Vec3.zero, 1000, 1, 1, 1, 2, 1⟩
      (le_refl 1) (le_refl 1) (le_refl 1)
      (fun _ _ _ _ _ _ => rfl) (fun _ _ => rfl)⟩

/-- C7 amended: the padding helper offsets the leading time-ordered point
by minus (distance times the reference convection direction) and the
trailing point by plus that product, where the distance is a parameter of
the helper and of the per-kite assembly; but the top-level assembly
`get_list_of_all_filaments` hard-codes `infinite_time = 1000.` rather
than exposing it as a configurable parameter. -/
theorem claim_C7_amended_extension_offsets_with_hardcoded_distance
    (variables_xd variables_xl : String → List ℝ)
    (architecture : Architecture)
    (n_k d periods_tracked kite parent : ℕ) (tip : String)
    (u_vec_ref : Vec3) (infinite_time : ℝ) :
    ((get_padded_points_by_kite_and_tip variables_xd n_k d periods_tracked
        kite parent tip u_vec_ref infinite_time).head? =
      some (Vec3.sub
        ((get_all_time_ordered_points_by_kite_and_tip variables_xd n_k d
            periods_tracked kite parent tip).getD 0 Vec3.zero)
        (Vec3.smul infinite_time u_vec_ref))) ∧
    ((get_padded_points_by_kite_and_tip variables_xd n_k d periods_tracked
        kite parent tip u_vec_ref infinite_time).getLast? =
      some (Vec3.add
        ((get_all_time_ordered_points_by_kite_and_tip variables_xd n_k d
            periods_tracked kite parent tip).getD
          ((get_all_time_ordered_points_by_kite_and_tip variables_xd n_k d
              periods_tracked kite parent tip).length - 1) Vec3.zero)
        (Vec3.smul infinite_time u_vec_ref))) ∧
    get_list_of_all_filaments variables_xd variables_xl architecture
        u_vec_ref periods_tracked n_k d =
      collectKites variables_xd variables_xl architecture.parent_map
        u_vec_ref 1000 periods_tracked n_k d architecture.kite_nodes := by
  refine ⟨?_, ?_, rfl⟩
  · rw [get_padded_points_by_kite_and_tip]
    show some _ = some _
    congr 1
    ext <;> simp [Vec3.add, Vec3.sub, Vec3.smul] <;> ring
  · rw [get_padded_points_by_kite_and_tip, List.getLast?_concat]

/-- C7 counterexample: with `n_k = d = periods_tracked = 1`, all input
point/strength streams identically zero, and reference convection
direction `(1,0,0)`, the assembled filament list of
`get_list_of_all_filaments` contains extension points offset by exactly
`1000` — a constant appearing nowhere among the inputs or configuration,
because `get_list_of_all_filaments` hard-codes `infinite_time = 1000.`;
the projection distance is therefore not a configurable parameter of the
assembly. -/
theorem claim_C7_counterexample_distance_hardcoded_to_1000 :
    get_list_of_all_filaments (fun _ => [(0 : ℝ), 0]) (fun _ => [(0 : ℝ)])
        ⟨[2], fun _ => 1⟩ ⟨1, 0, 0⟩ 1 1 1 =
      some [⟨⟨0, 0, 0⟩, ⟨0, 0, 0⟩, (0 : ℝ)⟩,
            ⟨⟨0, 0, 0⟩, ⟨0, 0, 0⟩, (0 : ℝ) - 0⟩,
            ⟨⟨0, 0, 0⟩, ⟨0, 0, 0⟩, (0 : ℝ)⟩,
            ⟨⟨1000, 0, 0⟩, ⟨0, 0, 0⟩, (0 : ℝ)⟩,
            ⟨⟨0, 0, 0⟩, ⟨0, 0, 0⟩, (0 : ℝ) - 0⟩,
            ⟨⟨0, 0, 0⟩, ⟨1000, 0, 0⟩, (0 : ℝ)⟩] := by
  have hfil : get_list_of_filaments_by_kite
      ⟨fun _ => [(0 : ℝ), 0], fun _ => [(0 : ℝ)], ⟨1, 0, 0⟩, 1000,
        1, 1, 1, 2, 1⟩ =
      some [⟨⟨0, 0, 0⟩, ⟨0, 0, 0⟩, (0 : ℝ)⟩,
            ⟨⟨0, 0, 0⟩, ⟨0, 0, 0⟩, (0 : ℝ) - 0⟩,
            ⟨⟨0, 0, 0⟩, ⟨0, 0, 0⟩, (0 : ℝ)⟩,
            ⟨⟨1000, 0, 0⟩, ⟨0, 0, 0⟩, (0 : ℝ)⟩,
            ⟨⟨0, 0, 0⟩, ⟨0, 0, 0⟩, (0 : ℝ) - 0⟩,
            ⟨⟨0, 0, 0⟩, ⟨1000, 0, 0⟩, (0 : ℝ)⟩] := by
    norm_num [get_list_of_filaments_by_kite, get_padded_strengths_by_kite,
      get_all_time_ordered_strengths_by_kite, get_time_ordered_strength,
      get_padded_points_by_kite_and_tip,
      get_all_time_ordered_points_by_kite_and_tip,
      get_all_time_ordered_points_one_dim, get_time_ordered_wake_var_with_start,
      get_time_ordered_wake_var_without_start, combine3, List.range_succ,
      Vec3.add, Vec3.smul, Vec3.zero, collectRings, List.range',
      get_vortex_ring_filaments, pyIdx, Option.bind_eq_bind, Option.some_bind,
      Int.toNat_ofNat, show ((2 : ℤ).toNat) = 2 from rfl,
      show ((3 : ℤ).toNat) = 3 from rfl]
  rw [get_list_of_all_filaments]
  show collectKites _ _ _ _ _ _ _ _ [2] = _
  rw [collectKites]
  simp only [Option.bind_eq_bind]
  rw [hfil]
  rw [Option.some_bind, collectKites]
  rfl

/-- C3 counterexample: with padded strengths `[0, 1, 3, 3]` (rings of
strengths 1 and 3 between the two infinite extensions), the signed
segment strengths around the closed ring `rdx = 1` sum to `1`, not `0`:
the emitted strengths are `1 + 1 + 1` and the shared fourth edge carries
`3 - 1 = 2`. -/
theorem claim_C3_counterexample_loop_sum_nonzero :
    ring_loop_signed_strength_sum [(0 : ℝ), 1, 3, 3]
        (List.replicate 5 Vec3.zero) (List.replicate 5 Vec3.zero) 1 =
      some 1 ∧ (1 : ℝ) ≠ 0 := by
  constructor
  · norm_num [ring_loop_signed_strength_sum, get_vortex_ring_filaments, pyIdx,
      Option.bind_eq_bind, Option.some_bind, Int.toNat_ofNat,
      show ((2 : ℤ).toNat) = 2 from rfl, show ((3 : ℤ).toNat) = 3 from rfl]
  · norm_num

/-- C3 amended: the shared interior-leading to exterior-leading segment of
ring `rdx` carries strength `(strength of ring rdx) - (strength of ring
rdx-1)`; circulation is conserved not as a zero loop sum but as junction
balance: the ring's interior segment strength equals its cross-segment
strength plus the previous ring strength, the two streamwise segments
carry equal strength, the padded table starts with the zero strength of
the leading infinite extension, and for the first ring the cross segment
carries the full ring strength. -/
theorem claim_C3_amended_shared_segment_strength_and_balance
    (variables_xl : String → List ℝ)
    (n_k d periods_tracked kite parent rdx : ℕ) (pe pi : List Vec3)
    (hrdx1 : 1 ≤ rdx)
    (hrdx2 : rdx < periods_tracked * (n_k * d) + 2)
    (hpe : pe.length = periods_tracked * (n_k * d) + 3)
    (hpi : pi.length = periods_tracked * (n_k * d) + 3) :
    ∃ f1 f2 f3,
      get_vortex_ring_filaments
          (get_padded_strengths_by_kite variables_xl n_k d periods_tracked
            kite parent) pe pi (rdx : ℤ) = some [f1, f2, f3] ∧
      f2.strength =
        (get_padded_strengths_by_kite variables_xl n_k d periods_tracked
          kite parent).getD rdx 0 -
        (get_padded_strengths_by_kite variables_xl n_k d periods_tracked
          kite parent).getD (rdx - 1) 0 ∧
      f1.strength = f2.strength +
        (get_padded_strengths_by_kite variables_xl n_k d periods_tracked
          kite parent).getD (rdx - 1) 0 ∧
      f3.strength = f1.strength ∧
      (get_padded_strengths_by_kite variables_xl n_k d periods_tracked
        kite parent).getD 0 0 = 0 ∧
      (rdx = 1 → f2.strength = f1.strength) := by
  have hps := get_padded_strengths_length variables_xl n_k d periods_tracked
    kite parent
  have h := get_vortex_ring_filaments_in_range
    (get_padded_strengths_by_kite variables_xl n_k d periods_tracked kite
      parent) pe pi (periods_tracked * (n_k * d) + 2) rdx hps
    (by omega) (by omega) hrdx1 hrdx2
  have h0 : (get_padded_strengths_by_kite variables_xl n_k d periods_tracked
      kite parent).getD 0 0 = 0 := rfl
  refine ⟨_, _, _, h, rfl, by ring, rfl, h0, ?_⟩
  intro h1
  subst h1
  rw [h0]
  ring

/-- Witness for the amended C3 at `n_k = 1`, `d = 2`,
`periods_tracked = 1`, strengths stream `[1, 3]`, ring `rdx = 1`. -/
theorem claim_C3_amended_shared_segment_strength_and_balance_witness :
    (1 : ℕ) ≤ 1 ∧ (1 : ℕ) < 1 * (1 * 2) + 2 ∧
      (List.replicate 5 Vec3.zero).length = 1 * (1 * 2) + 3 ∧
      (∃ f1 f2 f3,
        get_vortex_ring_filaments
            (get_padded_strengths_by_kite (fun _ => [(1 : ℝ), 3]) 1 2 1 2 1)
            (List.replicate 5 Vec3.zero) (List.replicate 5 Vec3.zero)
            ((1 : ℕ) : ℤ) = some [f1, f2, f3] ∧
        f2.strength =
          (get_padded_strengths_by_kite (fun _ => [(1 : ℝ), 3]) 1 2 1 2
            1).getD 1 0 -
          (get_padded_strengths_by_kite (fun _ => [(1 : ℝ), 3]) 1 2 1 2
            1).getD (1 - 1) 0 ∧
        f1.strength = f2.strength +
          (get_padded_strengths_by_kite (fun _ => [(1 : ℝ), 3]) 1 2 1 2
            1).getD (1 - 1) 0 ∧
        f3.strength = f1.strength ∧
        (get_padded_strengths_by_kite (fun _ => [(1 : ℝ), 3]) 1 2 1 2
          1).getD 0 0 = 0 ∧
        ((1 : ℕ) = 1 → f2.strength = f1.strength)) :=
  ⟨le_refl 1, by norm_num, rfl,
    claim_C3_amended_shared_segment_strength_and_balance (fun _ => [(1 : ℝ), 3])
      1 2 1 2 1 1 (List.replicate 5 Vec3.zero) (List.replicate 5 Vec3.zero)
      (le_refl 1) (by norm_num) rfl rfl⟩

/-- C8 counterexample: (i) with the `y` position stream missing from the
variable dictionary but `x` present, `get_vector_var` does NOT fail at
all — the caught lookup failure leaves the stale `x` stream bound, and a
value is returned (with the `x` component silently duplicated into the
`y` slot); (ii) with an unknown quantity-type selector `"abc"`, the call
fails, but with an unbound-local error (the selector branch only logs),
not a ConfigurationError. -/
theorem claim_C8_counterexample_no_configuration_error :
    get_vector_var 1 1
        (fun n => if n = "wy_int_0_10" then none else some [3, 7])
        "pos" "int" 0 1 0 false 0 0 = Except.ok [7, 7, 7] ∧
      get_vector_var 1 1 (fun _ => none) "abc" "int" 0 1 0 false 0 0 =
        Except.error PyErr.unboundLocal ∧
      Except.error PyErr.unboundLocal ≠
        (Except.error PyErr.configurationError : Except PyErr (List ℝ)) := by
  refine ⟨rfl, rfl, ?_⟩
  intro h
  exact absurd (Except.error.inj h) (by decide)

/-- C8 amended: for every quantity-type selector other than `pos`/`vel`,
the lookup fails with an unbound-local error (after logging), not a
ConfigurationError; and when the first (`x`) component name is unknown,
it likewise fails with an unbound-local error. -/
theorem claim_C8_amended_unknown_selector_or_first_name_unbound_local
    (n_k d : ℕ) (variables_xd : String → Option (List ℝ))
    (pos_vel tip : String) (period kite parent : ℕ) (start : Bool)
    (ndx ddx : ℕ) :
    (pos_vel ≠ "pos" → pos_vel ≠ "vel" →
      get_vector_var n_k d variables_xd pos_vel tip period kite parent
        start ndx ddx = Except.error PyErr.unboundLocal) ∧
    (variables_xd (var_component_name "w" "x" tip period kite parent) = none →
      get_vector_var n_k d variables_xd "pos" tip period kite parent
        start ndx ddx = Except.error PyErr.unboundLocal) := by
  constructor
  · intro hpos hvel
    rw [get_vector_var]
    simp only [if_neg hpos, if_neg hvel]
    rfl
  · intro hnone
    rw [get_vector_var]
    simp only [if_pos rfl]
    show getVectorVarLoop n_k d variables_xd (some "w") tip period kite parent
        start ndx ddx ("x" :: ["y", "z"]) none [] = _
    rw [getVectorVarLoop.eq_def]
    simp only [hnone]

/-- Witness for the amended C8: the unknown selector `"abc"` and an
empty variable dictionary at `pos`. -/
theorem claim_C8_amended_unknown_selector_or_first_name_witness :
    ("abc" : String) ≠ "pos" ∧ ("abc" : String) ≠ "vel" ∧
      get_vector_var 1 1 (fun _ => some [3, 7]) "abc" "int" 0 1 0 false 0 0 =
        Except.error PyErr.unboundLocal ∧
      ((fun _ : String => (none : Option (List ℝ)))
          (var_component_name "w" "x" "int" 0 1 0) = none) ∧
      get_vector_var 1 1 (fun _ => none) "pos" "int" 0 1 0 false 0 0 =
        Except.error PyErr.unboundLocal :=
  ⟨by decide, by decide,
    (claim_C8_amended_unknown_selector_or_first_name_unbound_local 1 1
      (fun _ => some [3, 7]) "abc" "int" 0 1 0 false 0 0).1
      (by decide) (by decide),
    rfl,
    (claim_C8_amended_unknown_selector_or_first_name_unbound_local 1 1
      (fun _ => none) "pos" "int" 0 1 0 false 0 0).2 rfl⟩
